import Mathlib

/-!
# A verification development for the scheduled SFTP downloader (`main.go`)

The program connects to one SSH host, opens an SFTP session and copies a list
of remote files into a local directory.  Everything it does is an effect on
the outside world, so the embedding threads an explicit `World` (the local
filesystem plus the trace of every call the program makes) through each
function, and takes the answers of the outside world (does the dial succeed,
does the remote file open, ...) from an `Env` of oracles.

* `pathBase`, `pathClean`, `pathJoin` follow Go's standard `path` package,
  which `downloadFiles` calls to compute the local destination.  They are
  library functions, not functions of `main.go`; `path.Clean` is embedded as a
  loop over the slash-separated elements of the path, one turn per element as
  in the library, with the written elements kept as a list.
* The local filesystem keeps apart the paths and the files they lead to: two
  paths may lead to one file (a symbolic link, a hard link), and a file may be
  a device that keeps nothing of what is written to it.
* The answers of turn `i` of the loop of `downloadFiles` are looked up in the
  `Env` by the position `i` of the file in the list, so that a path listed
  twice may be answered differently each time.
* `connect`, `downloadFiles`, `copyFile`, `downloadRemote`,
  `downloadAndShowTime` follow the functions of the same names in `main.go`.
-/

namespace Nas

/-! ## Go's `path` package -/

/-- The slash-separated elements of a path: `a//b` gives `a`, the empty element, `b`. -/
def splitSlash : List Char → List (List Char)
  | [] => [[]]
  | c :: cs =>
    if c = '/' then [] :: splitSlash cs
    else match splitSlash cs with
      | [] => [[c]]
      | e :: es => (c :: e) :: es

/-- Elements joined with single slashes. -/
def joinSlash : List (List Char) → List Char
  | [] => []
  | [e] => e
  | e :: es => e ++ '/' :: joinSlash es

/-- One turn of the loop of `path.Clean`, on the element that starts at the
read position.  `out` holds the elements written so far, the last one first.
An empty element (a repeated slash) and `.` are skipped.  `..` removes the
last written element when there is one to backtrack over (`out.w > dotdot`);
otherwise it is dropped in a rooted path and written in an unrooted one.  Any
other element is written. -/
def cleanStep (rooted : Bool) (out : List (List Char)) (e : List Char) : List (List Char) :=
  if e = [] then out
  else if e = ['.'] then out
  else if e = ['.', '.'] then
    match out with
    | [] => if rooted then [] else [e]
    | top :: below =>
      if top = ['.', '.'] then (if rooted then out else e :: out)
      else below
  else e :: out

/-- The elements `path.Clean` has written when it reaches the end of the path, the last one first. -/
def cleanElems (p : List Char) : List (List Char) :=
  (splitSlash p).foldl (cleanStep (p.head? = some '/')) []

/-- The string `path.Clean` returns for the written elements: a leading slash
for a rooted path, the elements separated by slashes, and `.` when nothing was
written. -/
def renderClean (rooted : Bool) (out : List (List Char)) : List Char :=
  let s := (if rooted then ['/'] else []) ++ joinSlash out.reverse
  if s = [] then ['.'] else s

/-- Go's `path.Clean` on the characters of a path. -/
def cleanChars (p : List Char) : List Char :=
  if p = [] then ['.'] else renderClean (p.head? = some '/') (cleanElems p)

/-- Go's `path.Base` on the characters of a path: `.` for the empty path,
otherwise trailing slashes are stripped, what follows the last slash is kept,
and a path of slashes only gives `/`. -/
def baseChars (p : List Char) : List Char :=
  if p = [] then ['.']
  else
    let stripped := (p.reverse.dropWhile (fun c => c = '/')).reverse
    let last := (stripped.reverse.takeWhile (fun c => c ≠ '/')).reverse
    if last = [] then ['/'] else last

/-- Go's `path.Join` of two elements: empty elements are ignored, the others
are joined with a slash and the result is cleaned; two empty elements give the
empty string. -/
def joinChars (a b : List Char) : List Char :=
  if a.length + b.length = 0 then []
  else if a = [] then cleanChars b
  else cleanChars (a ++ '/' :: b)

/-- `path.Clean`. -/
def pathClean (p : String) : String := ⟨cleanChars p.data⟩

/-- `path.Base`. -/
def pathBase (p : String) : String := ⟨baseChars p.data⟩

/-- `path.Join(a, b)`. -/
def pathJoin (a b : String) : String := ⟨joinChars a.data b.data⟩

/-- The local destination `downloadFiles` computes for a remote file:
`path.Join(localDir, path.Base(remoteFile))`. -/
def localFilePath (localDir remoteFile : String) : String :=
  pathJoin localDir (pathBase remoteFile)

/-- An ordinary file name: not empty, without a slash, and neither `.` nor `..`. -/
def ordinaryName (n : List Char) : Bool :=
  decide (n ≠ []) && decide ('/' ∉ n) && decide (n ≠ ['.']) && decide (n ≠ ['.', '.'])

/-- The path of the entry `name` of the directory whose cleaned path is `d`:
the name alone in the current directory `.`, otherwise the directory, a slash
(the root `/` has its own) and the name. -/
def childChars (d name : List Char) : List Char :=
  if d = ['.'] then name
  else if d = ['/'] then '/' :: name
  else d ++ '/' :: name

/-- The path `dest` is the path of an entry of the directory `localDir`
itself: its base is an ordinary file name and `dest` is the entry of that name
in the cleaned `localDir`.  This is a property of the path as a string. -/
def isFileUnder (localDir dest : String) : Bool :=
  ordinaryName (baseChars dest.data) &&
    decide (dest.data = childChars (cleanChars localDir.data) (baseChars dest.data))

/-- What `path.Clean` has written: elements that are not empty, not `.`, and without a slash. -/
def WrittenOk (out : List (List Char)) : Prop :=
  ∀ e ∈ out, e ≠ [] ∧ e ≠ ['.'] ∧ '/' ∉ e

/-! ## The outside world -/

/-- File contents, one number per byte. -/
abbrev Bytes := List Nat

/-- The calls the program makes on the outside world, in the order it makes
them.  `i` is the position in `remoteFiles` (from 0) of the file the call
belongs to; the remote handle and the local handle of that turn of the loop
are named by it.  `closeConn` and `closeClient` stand for `conn.Close()` and
`client.Close()`. -/
inductive Event where
  | dial (addr user : String) (ok : Bool)
  | newClient (ok : Bool)
  | closeConn
  | closeClient
  | openRemote (i : Nat) (remoteFile : String) (ok : Bool)
  | create (i : Nat) (localFilePath : String) (ok : Bool)
  | copy (i : Nat) (ok : Bool)
  | closeSrc (i : Nat)
  | closeDst (i : Nat)
  | print (line : String)
  deriving DecidableEq, Repr

/-- The local filesystem and the calls made so far.
* `fileOf p`: the file the local path `p` leads to, named by one of its paths.
  Two paths lead to the same file when one is a symbolic link or a hard link
  to the other.  The program only creates and truncates files, it makes no
  link and removes nothing, so the file a path leads to is the same throughout
  a run.
* `device f`: the file is a device such as `/dev/null`, which keeps nothing of
  what is written to it.
* `content f`: the bytes stored in the file, `none` when there is no such file. -/
structure World where
  fileOf : String → String
  device : String → Bool
  content : String → Option Bytes
  trace : List Event

/-- What is read at a local path: the bytes of the file the path leads to. -/
def World.files (w : World) (p : String) : Option Bytes :=
  w.content (w.fileOf p)

/-- Record a call. -/
def World.log (w : World) (e : Event) : World :=
  { w with trace := w.trace ++ [e] }

/-- Truncate the file the path `p` leads to and write the bytes `b` to it,
as `os.Create` and the writes of `io.Copy` through the handle do: the bytes
land in the file the path leads to, whatever other paths lead to it, and a
device keeps none of them. -/
def World.write (w : World) (p : String) (b : Bytes) : World :=
  if w.device (w.fileOf p) then w
  else { w with content := fun f => if f = w.fileOf p then some b else w.content f }

/-- The answers of the outside world during one run.
* `now`: `time.Now().Format(time.DateTime)`.
* `dial addr user password`: the error of `ssh.Dial` (transport and authentication), if any.
* `newClient`: the error of `sftp.NewClient`, if any.
* `remoteOpen i remoteFile`: `client.Open` in turn `i`, the bytes of the remote file or the error.
* `localCreate i path`: the error of `os.Create` in turn `i`, if any.
* `copyFault i`: when `io.Copy` fails in turn `i`, the number of bytes written before and the error. -/
structure Env where
  now : String
  dial : String → String → String → Option String
  newClient : Option String
  remoteOpen : Nat → String → Except String Bytes
  localCreate : Nat → String → Option String
  copyFault : Nat → Option (Nat × String)

/-! ## The program -/

structure ConnectionParam where
  User : String
  Password : String
  Host : String
  Port : Int
  RemoteFiles : List String
  Cron : String

/-- The SFTP session `connect` returns. -/
structure Client where
  addr : String
  deriving DecidableEq, Repr

/-- `fmt.Errorf("failed to open remote file %s: %v", remoteFile, err)`. -/
def errOpen (remoteFile err : String) : String :=
  "failed to open remote file " ++ remoteFile ++ ": " ++ err

/-- `fmt.Errorf("failed to create local file %s: %v", localFilePath, err)`. -/
def errCreate (localFilePath err : String) : String :=
  "failed to create local file " ++ localFilePath ++ ": " ++ err

/-- `fmt.Errorf("failed to copy file %s to %s: %v", remoteFile, localFilePath, err)`. -/
def errCopy (remoteFile localFilePath err : String) : String :=
  "failed to copy file " ++ remoteFile ++ " to " ++ localFilePath ++ ": " ++ err

/-- `fmt.Printf("Downloaded %s to %s\n", remoteFile, localFilePath)`. -/
def downloadedLine (remoteFile localFilePath : String) : String :=
  "Downloaded " ++ remoteFile ++ " to " ++ localFilePath ++ "\n"

/-- `fmt.Println("Start download at", time.Now().Format(time.DateTime))`. -/
def startLine (env : Env) : String :=
  "Start download at " ++ env.now ++ "\n"

/-- `connect`: dial, then open the SFTP session on the connection; either
error is returned as it is, and nothing is closed on the way out. -/
def connect (env : Env) (param : ConnectionParam) (w : World) : Except String Client × World :=
  let addr := param.Host ++ ":" ++ toString param.Port
  match env.dial addr param.User param.Password with
  | some err => (.error err, w.log (.dial addr param.User false))
  | none =>
    let w := w.log (.dial addr param.User true)
    match env.newClient with
    | some err => (.error err, w.log (.newClient false))
    | none => (.ok ⟨addr⟩, w.log (.newClient true))

/-- `copyFile`: `io.Copy(dst, src)`, which returns no error only when it has
read the source to its end and written every byte.  On success all the bytes
the remote handle delivers have been written through the local handle; on
failure the bytes read before the error have. -/
def copyFile (env : Env) (i : Nat) (src : Bytes) (dst : String) (w : World) : Option String × World :=
  match env.copyFault i with
  | some (n, err) => (some err, (w.write dst (src.take n)).log (.copy i false))
  | none => (none, (w.write dst src).log (.copy i true))

/-- The body of the loop of `downloadFiles` for the file at position `i`:
the returned error, if the body returns one, and the world afterwards. -/
def downloadOne (env : Env) (localDir : String) (i : Nat) (remoteFile : String) (w : World) :
    Option String × World :=
  match env.remoteOpen i remoteFile with
  | .error err => (some (errOpen remoteFile err), w.log (.openRemote i remoteFile false))
  | .ok srcFile =>
    let w := w.log (.openRemote i remoteFile true)
    let localFilePath := pathJoin localDir (pathBase remoteFile)
    match env.localCreate i localFilePath with
    | some err =>
      let w := w.log (.create i localFilePath false)
      let w := w.log (.closeSrc i)
      (some (errCreate localFilePath err), w)
    | none =>
      let w := (w.write localFilePath []).log (.create i localFilePath true)
      match copyFile env i srcFile localFilePath w with
      | (some err, w) =>
        let w := w.log (.closeSrc i)
        let w := w.log (.closeDst i)
        (some (errCopy remoteFile localFilePath err), w)
      | (none, w) =>
        let w := w.log (.closeSrc i)
        let w := w.log (.closeDst i)
        let w := w.log (.print (downloadedLine remoteFile localFilePath))
        (none, w)

/-- The loop of `downloadFiles` from position `i` on: it returns at the first
body that returns an error. -/
def downloadFilesFrom (env : Env) (localDir : String) : Nat → List String → World → Option String × World
  | _, [], w => (none, w)
  | i, remoteFile :: rest, w =>
    match downloadOne env localDir i remoteFile w with
    | (some err, w) => (some err, w)
    | (none, w) => downloadFilesFrom env localDir (i + 1) rest w

/-- `downloadFiles(client, remoteFiles, localDir)`. -/
def downloadFiles (env : Env) (_client : Client) (remoteFiles : List String) (localDir : String)
    (w : World) : Option String × World :=
  downloadFilesFrom env localDir 0 remoteFiles w

/-- `downloadRemote`: return when `connect` fails, otherwise run
`downloadFiles` into `./` and drop its error. -/
def downloadRemote (env : Env) (params : ConnectionParam) (w : World) : World :=
  match connect env params w with
  | (.error _, w) => w
  | (.ok client, w) => (downloadFiles env client params.RemoteFiles "./" w).2

/-- `downloadAndShowTime`: print the start line, then `downloadRemote`. -/
def downloadAndShowTime (env : Env) (params : ConnectionParam) (w : World) : World :=
  downloadRemote env params (w.log (.print (startLine env)))

/-! ## Vocabulary of the properties -/

/-- The lines a sequence of calls writes. -/
def printedLines (es : List Event) : List String :=
  es.filterMap fun e => match e with
    | .print l => some l
    | _ => none

/-- The lines written to standard output, in order. -/
def stdout (w : World) : List String :=
  printedLines w.trace

/-- The calls made since the world `w`. -/
def newEvents (w w1 : World) : List Event :=
  w1.trace.drop w.trace.length

/-- The position of the file a call belongs to, for the calls on files. -/
def Event.position : Event → Option Nat
  | .openRemote i _ _ => some i
  | .create i _ _ => some i
  | .copy i _ => some i
  | .closeSrc i => some i
  | .closeDst i => some i
  | _ => none

/-- In turn `i` the remote file opens, the local file is created and the copy completes. -/
def succeedsAt (env : Env) (localDir : String) (i : Nat) (remoteFile : String) : Bool :=
  match env.remoteOpen i remoteFile with
  | .error _ => false
  | .ok _ =>
    (env.localCreate i (localFilePath localDir remoteFile)).isNone && (env.copyFault i).isNone

/-- The calls of one turn of the loop in which every step succeeds. -/
def successEvents (localDir : String) (i : Nat) (remoteFile : String) : List Event :=
  [.openRemote i remoteFile true,
   .create i (localFilePath localDir remoteFile) true,
   .copy i true,
   .closeSrc i,
   .closeDst i,
   .print (downloadedLine remoteFile (localFilePath localDir remoteFile))]

/-- The calls of successive successful turns, for the files at positions `i`, `i + 1`, ... -/
def successTrace (localDir : String) : Nat → List String → List Event
  | _, [] => []
  | i, f :: fs => successEvents localDir i f ++ successTrace localDir (i + 1) fs

/-- The calls of a turn of the loop in which a step fails: a failed open; or
an open, a failed create and the release of the remote handle; or an open, a
create, a failed copy and the release of both handles. -/
def failureEvents (env : Env) (localDir : String) (i : Nat) (remoteFile : String) : List Event :=
  match env.remoteOpen i remoteFile with
  | .error _ => [.openRemote i remoteFile false]
  | .ok _ =>
    match env.localCreate i (localFilePath localDir remoteFile) with
    | some _ =>
      [.openRemote i remoteFile true, .create i (localFilePath localDir remoteFile) false, .closeSrc i]
    | none =>
      [.openRemote i remoteFile true, .create i (localFilePath localDir remoteFile) true,
       .copy i false, .closeSrc i, .closeDst i]

/-- The calls of the loop from position `i` on: successful turns up to the
first failing one, which is the last. -/
def runEvents (env : Env) (localDir : String) : Nat → List String → List Event
  | _, [] => []
  | i, f :: fs =>
    if succeedsAt env localDir i f then successEvents localDir i f ++ runEvents env localDir (i + 1) fs
    else failureEvents env localDir i f

/-- How many turns succeed before the first failing one, from position `i` on. -/
def successCount (env : Env) (localDir : String) : Nat → List String → Nat
  | _, [] => 0
  | i, f :: fs =>
    if succeedsAt env localDir i f then successCount env localDir (i + 1) fs + 1 else 0

/-- A handle of a turn of the loop: the remote file or the local file of position `i`. -/
inductive Handle where
  | src (i : Nat)
  | dst (i : Nat)
  deriving DecidableEq, Repr

/-- Replays the calls on file handles against the handles that are open.
The result is the handles left open, or `none` when a call breaks the
discipline: a remote file is opened while a handle of an earlier turn is still
open, a handle is created that is already open, or a handle is released that
is not open (never opened, or released before). -/
def replayHandles : List Handle → List Event → Option (List Handle)
  | hs, [] => some hs
  | hs, .openRemote i _ true :: es => if hs = [] then replayHandles [.src i] es else none
  | hs, .create i _ true :: es =>
    if Handle.dst i ∈ hs then none else replayHandles (.dst i :: hs) es
  | hs, .closeSrc i :: es =>
    if Handle.src i ∈ hs then replayHandles (hs.erase (.src i)) es else none
  | hs, .closeDst i :: es =>
    if Handle.dst i ∈ hs then replayHandles (hs.erase (.dst i)) es else none
  | hs, _ :: es => replayHandles hs es

/-- The world before a run: no local file, no link, no device, no call made. -/
def emptyWorld : World := ⟨fun p => p, fun _ => false, fun _ => none, []⟩

/-- As `emptyWorld`, with `x.txt` a link to `y.txt`. -/
def linkedWorld : World :=
  { emptyWorld with fileOf := fun p => if p = "x.txt" then "y.txt" else p }

/-- As `emptyWorld`, with the device `/dev/null`, which reads as empty. -/
def deviceWorld : World :=
  { emptyWorld with
    device := fun f => decide (f = "/dev/null")
    content := fun f => if f = "/dev/null" then some [] else none }

/-- Every step of every turn succeeds; the remote file of turn `i` holds the byte `i + 1`. -/
def envAllOk : Env :=
  { now := "2024-05-01 12:00:00"
    dial := fun _ _ _ => none
    newClient := none
    remoteOpen := fun i _ => .ok [i + 1]
    localCreate := fun _ _ => none
    copyFault := fun _ => none }

/-- The remote file `/missing.txt` does not open; everything else succeeds. -/
def envMissing : Env :=
  { envAllOk with
    remoteOpen := fun i f => if f = "/missing.txt" then .error "file does not exist" else .ok [i + 1] }

/-- The local file of turn 1 cannot be created; everything else succeeds. -/
def envCreateFails : Env :=
  { envAllOk with
    localCreate := fun i _ => if i = 1 then some "permission denied" else none }

/-- The copy of turn 1 fails after three bytes; the remote files hold five bytes. -/
def envCopyFails : Env :=
  { envAllOk with
    remoteOpen := fun i _ => .ok [i, 1, 2, 3, 4]
    copyFault := fun i => if i = 1 then some (3, "connection lost") else none }

/-- The claim of content fidelity, as a property of one run of `downloadFiles`:
the local file of every position holds the bytes of the remote file of that position. -/
def ContentFidelity (env : Env) (client : Client) (files : List String) (dir : String)
    (w : World) : Prop :=
  ∀ (i : Nat) (h : i < files.length) (c : Bytes), env.remoteOpen i files[i] = .ok c →
    (downloadFiles env client files dir w).2.files (localFilePath dir files[i]) = some c

/-- The calls of `connect`: a failed dial; or a dial and a failed opening of
the session; or a dial and the opening of the session. -/
def connectEvents (env : Env) (param : ConnectionParam) : List Event :=
  match env.dial (param.Host ++ ":" ++ toString param.Port) param.User param.Password with
  | some _ => [.dial (param.Host ++ ":" ++ toString param.Port) param.User false]
  | none =>
    match env.newClient with
    | some _ => [.dial (param.Host ++ ":" ++ toString param.Port) param.User true, .newClient false]
    | none => [.dial (param.Host ++ ":" ++ toString param.Port) param.User true, .newClient true]

/-- The invariant the specification puts on a `ConnectionParam`: the host is
not empty and the port is a TCP port. -/
def ConnectionParam.wellFormed (p : ConnectionParam) : Bool :=
  p.Host ≠ "" && 1 ≤ p.Port && p.Port ≤ 65535

/-- The host refuses the connection. -/
def envHostDown : Env :=
  { envAllOk with dial := fun _ _ _ => some "connection refused" }

/-- The dial succeeds and the SFTP session cannot be opened. -/
def envNoSftp : Env :=
  { envAllOk with newClient := some "subsystem request failed" }

/-- A well-formed configuration asking for two files. -/
def paramsTwo : ConnectionParam :=
  { User := "backup", Password := "secret", Host := "nas.example.org", Port := 22,
    RemoteFiles := ["/missing.txt", "/data/b.txt"], Cron := "0 0 * * * *" }

/-- A well-formed configuration asking for no file. -/
def paramsNone : ConnectionParam :=
  { paramsTwo with RemoteFiles := [] }

/-! ## Paths -/

theorem splitSlash_ne_nil (p : List Char) : splitSlash p ≠ [] := by
  cases p with
  | nil => simp [splitSlash]
  | cons c cs =>
    rw [splitSlash]
    split
    · simp
    · split <;> simp

theorem splitSlash_append (a b : List Char) :
    splitSlash (a ++ '/' :: b) = splitSlash a ++ splitSlash b := by
  induction a with
  | nil => simp [splitSlash]
  | cons c cs ih =>
    rw [List.cons_append, splitSlash, splitSlash, ih]
    by_cases hc : c = '/'
    · simp [hc]
    · simp only [hc, if_false]
      cases hs : splitSlash cs with
      | nil => exact absurd hs (splitSlash_ne_nil cs)
      | cons e es => simp

theorem splitSlash_of_no_slash (n : List Char) (h : '/' ∉ n) : splitSlash n = [n] := by
  induction n with
  | nil => rfl
  | cons c cs ih =>
    have hc : c ≠ '/' := fun hc => h (by simp [hc])
    have hcs : '/' ∉ cs := fun hcs => h (List.mem_cons_of_mem _ hcs)
    rw [splitSlash, ih hcs]
    simp [hc]

theorem splitSlash_no_slash (p : List Char) : ∀ e ∈ splitSlash p, '/' ∉ e := by
  induction p with
  | nil => simp [splitSlash]
  | cons c cs ih =>
    intro e he
    rw [splitSlash] at he
    by_cases hc : c = '/'
    · simp only [hc, if_true, List.mem_cons] at he
      rcases he with rfl | he
      · simp
      · exact ih e he
    · simp only [hc, if_false] at he
      cases hs : splitSlash cs with
      | nil => exact absurd hs (splitSlash_ne_nil cs)
      | cons e1 es =>
        rw [hs] at he ih
        simp only [List.mem_cons] at he
        rcases he with rfl | he
        · intro hmem
          simp only [List.mem_cons] at hmem
          rcases hmem with h | h
          · exact hc h.symm
          · exact ih e1 (by simp) h
        · exact ih e (by simp [he])

theorem cleanStep_writtenOk (rooted : Bool) (out : List (List Char)) (e : List Char)
    (hout : WrittenOk out) (he : '/' ∉ e) : WrittenOk (cleanStep rooted out e) := by
  unfold cleanStep
  by_cases h1 : e = []
  · simpa [h1] using hout
  by_cases h2 : e = ['.']
  · simpa [h2] using hout
  have hnew : WrittenOk (e :: out) := by
    intro x hx
    simp only [List.mem_cons] at hx
    rcases hx with rfl | hx
    · exact ⟨h1, h2, he⟩
    · exact hout x hx
  by_cases h3 : e = ['.', '.']
  · simp only [h1, h2, h3, if_false, if_true]
    cases out with
    | nil =>
      cases rooted
      · simpa [h3] using hnew
      · simp [WrittenOk]
    | cons top below =>
      have hbelow : WrittenOk below := fun x hx => hout x (List.mem_cons_of_mem _ hx)
      by_cases h4 : top = ['.', '.']
      · cases rooted
        · simpa [h4, h3] using hnew
        · simpa [h4] using hout
      · simpa [h4] using hbelow
  · simpa [h1, h2, h3] using hnew

theorem foldl_cleanStep_writtenOk (rooted : Bool) (es : List (List Char)) :
    ∀ (out : List (List Char)), WrittenOk out → (∀ e ∈ es, '/' ∉ e) →
      WrittenOk (es.foldl (cleanStep rooted) out) := by
  induction es with
  | nil => intro out h _; simpa using h
  | cons e es ih =>
    intro out h hes
    rw [List.foldl_cons]
    exact ih _ (cleanStep_writtenOk rooted out e h (hes e (by simp)))
      (fun x hx => hes x (List.mem_cons_of_mem _ hx))

theorem cleanElems_writtenOk (p : List Char) : WrittenOk (cleanElems p) := by
  unfold cleanElems
  exact foldl_cleanStep_writtenOk _ _ [] (by simp [WrittenOk]) (splitSlash_no_slash p)

theorem joinSlash_cons (x : List Char) (rest : List (List Char)) (h : rest ≠ []) :
    joinSlash (x :: rest) = x ++ '/' :: joinSlash rest := by
  cases rest with
  | nil => exact absurd rfl h
  | cons y ys => rfl

theorem joinSlash_append_singleton (xs : List (List Char)) (n : List Char) (hxs : xs ≠ []) :
    joinSlash (xs ++ [n]) = joinSlash xs ++ '/' :: n := by
  induction xs with
  | nil => exact absurd rfl hxs
  | cons x xs ih =>
    by_cases hx : xs = []
    · subst hx
      simp [joinSlash]
    · rw [List.cons_append, joinSlash_cons x _ (by simp), ih hx, joinSlash_cons x xs hx]
      simp

/-- The joined elements of a non-empty written sequence are not empty, do not
start with a slash and are not `.`. -/
theorem joinSlash_written (xs : List (List Char)) (hxs : xs ≠ []) (hok : WrittenOk xs) :
    joinSlash xs ≠ [] ∧ joinSlash xs ≠ ['.'] ∧ (joinSlash xs).head? ≠ some '/' := by
  cases xs with
  | nil => exact absurd rfl hxs
  | cons x ys =>
    obtain ⟨hx1, hx2, hx3⟩ := hok x (by simp)
    cases x with
    | nil => exact absurd rfl hx1
    | cons c cs =>
      have hc : c ≠ '/' := fun h => hx3 (by simp [h])
      cases ys with
      | nil => exact ⟨by simp [joinSlash], by simpa [joinSlash] using hx2, by simp [joinSlash, hc]⟩
      | cons y zs => simp [joinSlash, hc]

theorem ordinaryName_iff (n : List Char) :
    ordinaryName n = true ↔ n ≠ [] ∧ '/' ∉ n ∧ n ≠ ['.'] ∧ n ≠ ['.', '.'] := by
  simp [ordinaryName, and_assoc]

theorem cleanChars_ordinary (n : List Char) (hn : ordinaryName n = true) : cleanChars n = n := by
  obtain ⟨h1, h2, h3, h4⟩ := (ordinaryName_iff n).mp hn
  unfold cleanChars cleanElems
  rw [splitSlash_of_no_slash n h2]
  simp [h1, cleanStep, h3, h4, renderClean, joinSlash]
  cases n with
  | nil => exact absurd rfl h1
  | cons c cs =>
    have hc : c ≠ '/' := fun h => h2 (by simp [h])
    simp [hc]

/-- Cleaning a directory followed by a slash and an ordinary file name gives
the entry of that name in the cleaned directory. -/
theorem cleanChars_append_ordinary (dir n : List Char) (hdir : dir ≠ [])
    (hn : ordinaryName n = true) :
    cleanChars (dir ++ '/' :: n) = childChars (cleanChars dir) n := by
  obtain ⟨h1, h2, h3, h4⟩ := (ordinaryName_iff n).mp hn
  have hhead : (dir ++ '/' :: n).head? = dir.head? := by
    cases dir with
    | nil => exact absurd rfl hdir
    | cons c cs => rfl
  have helems : cleanElems (dir ++ '/' :: n) = n :: cleanElems dir := by
    unfold cleanElems
    rw [hhead, splitSlash_append, splitSlash_of_no_slash n h2, List.foldl_append]
    simp [cleanStep, h1, h3, h4]
  have hok := cleanElems_writtenOk dir
  unfold cleanChars
  rw [helems, hhead]
  simp only [hdir, if_false, List.append_eq_nil, List.cons_ne_self, and_false, reduceCtorEq]
  unfold renderClean childChars
  simp only [List.reverse_cons]
  cases hE : cleanElems dir with
  | nil =>
    by_cases hr : dir.head? = some '/'
    · simp [hr, joinSlash, h1]
    · simp [hr, joinSlash, h1]
  | cons e es =>
    have hne : (e :: es).reverse ≠ [] := by simp
    have hokr : WrittenOk (e :: es).reverse := by
      intro x hx
      exact hok x (by rw [hE]; exact List.mem_reverse.mp hx)
    generalize (e :: es).reverse = L at hne hokr ⊢
    obtain ⟨j1, j2, j3⟩ := joinSlash_written L hne hokr
    have j4 : joinSlash L ≠ ['/'] := by
      intro h
      rw [h] at j3
      simp at j3
    rw [joinSlash_append_singleton L n hne]
    by_cases hr : dir.head? = some '/'
    · simp [hr, j1]
    · simp [hr, j1, j2, j4]

theorem takeWhile_append_stop (q : Char → Bool) (a b : List Char) (x : Char)
    (ha : ∀ c ∈ a, q c = true) (hx : q x = false) : (a ++ x :: b).takeWhile q = a := by
  induction a with
  | nil => simp [List.takeWhile, hx]
  | cons c cs ih =>
    have hc : q c = true := ha c (by simp)
    simp [List.takeWhile, hc, ih (fun d hd => ha d (List.mem_cons_of_mem _ hd))]

theorem takeWhile_all (q : Char → Bool) (a : List Char) (ha : ∀ c ∈ a, q c = true) :
    a.takeWhile q = a := by
  induction a with
  | nil => rfl
  | cons c cs ih =>
    have hc : q c = true := ha c (by simp)
    simp [List.takeWhile, hc, ih (fun d hd => ha d (List.mem_cons_of_mem _ hd))]

/-- A name that is not empty and has no slash has no trailing slash to strip. -/
theorem dropWhile_slash_reverse (n rest : List Char) (h1 : n ≠ []) (h2 : '/' ∉ n) :
    (n.reverse ++ rest).dropWhile (fun c => decide (c = '/')) = n.reverse ++ rest := by
  cases hr : n.reverse with
  | nil => exact absurd (List.reverse_eq_nil_iff.mp hr) h1
  | cons c cs =>
    have hc : c ≠ '/' := by
      intro h
      apply h2
      have : c ∈ n.reverse := by rw [hr]; simp
      rw [h] at this
      exact List.mem_reverse.mp this
    simp [List.dropWhile, hc]

theorem baseChars_ordinary (n : List Char) (hn : ordinaryName n = true) : baseChars n = n := by
  obtain ⟨h1, h2, _, _⟩ := (ordinaryName_iff n).mp hn
  have hd := dropWhile_slash_reverse n [] h1 h2
  simp only [List.append_nil] at hd
  have ht : n.reverse.takeWhile (fun c => decide (c ≠ '/')) = n.reverse :=
    takeWhile_all _ _ (fun c hc => by
      have : c ∈ n := List.mem_reverse.mp hc
      simp only [ne_eq, decide_not, Bool.not_eq_true', decide_eq_false_iff_not]
      intro h; rw [h] at this; exact h2 this)
  unfold baseChars
  simp only [h1, if_false, hd, List.reverse_reverse, ht]

theorem baseChars_append_ordinary (d n : List Char) (hn : ordinaryName n = true) :
    baseChars (d ++ '/' :: n) = n := by
  obtain ⟨h1, h2, _, _⟩ := (ordinaryName_iff n).mp hn
  have hrev : (d ++ '/' :: n).reverse = n.reverse ++ '/' :: d.reverse := by simp
  have hd : (d ++ '/' :: n).reverse.dropWhile (fun c => decide (c = '/'))
      = n.reverse ++ '/' :: d.reverse := by
    rw [hrev]
    exact dropWhile_slash_reverse n ('/' :: d.reverse) h1 h2
  have ht : (n.reverse ++ '/' :: d.reverse).takeWhile (fun c => decide (c ≠ '/')) = n.reverse :=
    takeWhile_append_stop _ _ _ _ (fun c hc => by
      have : c ∈ n := List.mem_reverse.mp hc
      simp only [ne_eq, decide_not, Bool.not_eq_true', decide_eq_false_iff_not]
      intro h; rw [h] at this; exact h2 this) (by simp)
  have hne : d ++ '/' :: n ≠ [] := by simp
  unfold baseChars
  simp only [hne, if_false, hd, List.reverse_reverse, ht, h1]

theorem baseChars_childChars (d n : List Char) (hn : ordinaryName n = true) :
    baseChars (childChars d n) = n := by
  unfold childChars
  split
  · exact baseChars_ordinary n hn
  · split
    · exact baseChars_append_ordinary [] n hn
    · exact baseChars_append_ordinary d n hn

/-- The base of a path is `/` or has no slash. -/
theorem baseChars_no_dir (p : List Char) : baseChars p = ['/'] ∨ '/' ∉ baseChars p := by
  unfold baseChars
  by_cases hp : p = []
  · right; simp [hp]
  · simp only [hp, if_false]
    split
    · left; rfl
    · right
      intro h
      have h1 := List.mem_takeWhile_imp (List.mem_reverse.mp h)
      simp at h1

theorem joinChars_ordinary (dir n : List Char) (hn : ordinaryName n = true) :
    joinChars dir n = childChars (cleanChars dir) n := by
  have h1 : n ≠ [] := ((ordinaryName_iff n).mp hn).1
  unfold joinChars
  by_cases hd : dir = []
  · subst hd
    have : ¬ ([] : List Char).length + n.length = 0 := by
      simp [h1]
    simp only [this, if_false, if_true, cleanChars_ordinary n hn]
    simp [cleanChars, childChars]
  · have : ¬ dir.length + n.length = 0 := by
      simp [hd]
    simp only [this, if_false, hd, cleanChars_append_ordinary dir n hd hn]

/-! ## Writing and logging -/

@[simp] theorem World.log_trace (w : World) (e : Event) : (w.log e).trace = w.trace ++ [e] := rfl

@[simp] theorem World.log_fileOf (w : World) (e : Event) : (w.log e).fileOf = w.fileOf := rfl

@[simp] theorem World.log_device (w : World) (e : Event) : (w.log e).device = w.device := rfl

@[simp] theorem World.log_content (w : World) (e : Event) : (w.log e).content = w.content := rfl

@[simp] theorem World.write_trace (w : World) (p : String) (b : Bytes) :
    (w.write p b).trace = w.trace := by
  unfold World.write; split <;> rfl

@[simp] theorem World.write_fileOf (w : World) (p : String) (b : Bytes) :
    (w.write p b).fileOf = w.fileOf := by
  unfold World.write; split <;> rfl

@[simp] theorem World.write_device (w : World) (p : String) (b : Bytes) :
    (w.write p b).device = w.device := by
  unfold World.write; split <;> rfl

/-- A write leaves every file other than the one the path leads to as it was. -/
theorem World.write_content_other (w : World) (p : String) (b : Bytes) (f : String)
    (hf : f ≠ w.fileOf p) : (w.write p b).content f = w.content f := by
  unfold World.write; split
  · rfl
  · simp [hf]

/-- After a write the file the path leads to holds the written bytes, unless it is a device. -/
theorem World.write_content_same (w : World) (p : String) (b : Bytes)
    (hd : w.device (w.fileOf p) = false) : (w.write p b).content (w.fileOf p) = some b := by
  unfold World.write
  simp [hd]

/-! ## The loop, turn by turn -/

theorem downloadOne_trace (env : Env) (dir : String) (i : Nat) (f : String) (w : World) :
    (downloadOne env dir i f w).2.trace
      = w.trace ++ (if succeedsAt env dir i f then successEvents dir i f
                    else failureEvents env dir i f) := by
  cases h1 : env.remoteOpen i f with
  | error e => simp [downloadOne, succeedsAt, failureEvents, h1]
  | ok c =>
    cases h2 : env.localCreate i (pathJoin dir (pathBase f)) with
    | some e => simp [downloadOne, succeedsAt, failureEvents, localFilePath, h1, h2]
    | none =>
      cases h3 : env.copyFault i with
      | some ne =>
        simp [downloadOne, succeedsAt, failureEvents, copyFile, localFilePath, h1, h2, h3]
      | none =>
        simp [downloadOne, succeedsAt, successEvents, copyFile, localFilePath, h1, h2, h3]

theorem downloadOne_isNone (env : Env) (dir : String) (i : Nat) (f : String) (w : World) :
    (downloadOne env dir i f w).1 = none ↔ succeedsAt env dir i f = true := by
  cases h1 : env.remoteOpen i f with
  | error e => simp [downloadOne, succeedsAt, h1]
  | ok c =>
    cases h2 : env.localCreate i (pathJoin dir (pathBase f)) with
    | some e => simp [downloadOne, succeedsAt, localFilePath, h1, h2]
    | none =>
      cases h3 : env.copyFault i with
      | some ne => simp [downloadOne, succeedsAt, copyFile, localFilePath, h1, h2, h3]
      | none => simp [downloadOne, succeedsAt, copyFile, localFilePath, h1, h2, h3]

/-- A turn changes neither the file a path leads to nor which files are devices. -/
theorem downloadOne_fileOf (env : Env) (dir : String) (i : Nat) (f : String) (w : World) :
    (downloadOne env dir i f w).2.fileOf = w.fileOf ∧
    (downloadOne env dir i f w).2.device = w.device := by
  cases h1 : env.remoteOpen i f with
  | error e => simp [downloadOne, h1]
  | ok c =>
    cases h2 : env.localCreate i (pathJoin dir (pathBase f)) with
    | some e => simp [downloadOne, h1, h2]
    | none =>
      cases h3 : env.copyFault i with
      | some ne => simp [downloadOne, copyFile, h1, h2, h3]
      | none => simp [downloadOne, copyFile, h1, h2, h3]

/-- A turn leaves every file other than the one its destination leads to as it was. -/
theorem downloadOne_frame (env : Env) (dir : String) (i : Nat) (f : String) (w : World)
    (g : String) (hg : g ≠ w.fileOf (localFilePath dir f)) :
    (downloadOne env dir i f w).2.content g = w.content g := by
  have hg2 : g ≠ w.fileOf (pathJoin dir (pathBase f)) := hg
  cases h1 : env.remoteOpen i f with
  | error e => simp [downloadOne, h1]
  | ok c =>
    cases h2 : env.localCreate i (pathJoin dir (pathBase f)) with
    | some e => simp [downloadOne, h1, h2]
    | none =>
      cases h3 : env.copyFault i with
      | some ne =>
        simp only [downloadOne, copyFile, h1, h2, h3, World.log_content]
        rw [World.write_content_other _ _ _ _ (by simpa using hg2),
          World.log_content, World.write_content_other _ _ _ _ (by simpa using hg2),
          World.log_content]
      | none =>
        simp only [downloadOne, copyFile, h1, h2, h3, World.log_content]
        rw [World.write_content_other _ _ _ _ (by simpa using hg2),
          World.log_content, World.write_content_other _ _ _ _ (by simpa using hg2),
          World.log_content]

/-- After a successful turn the file the destination leads to holds the bytes
of the remote file, unless it is a device. -/
theorem downloadOne_content (env : Env) (dir : String) (i : Nat) (f : String) (w : World)
    (c : Bytes) (hc : env.remoteOpen i f = .ok c) (hs : succeedsAt env dir i f = true)
    (hd : w.device (w.fileOf (localFilePath dir f)) = false) :
    (downloadOne env dir i f w).2.content (w.fileOf (localFilePath dir f)) = some c := by
  unfold succeedsAt at hs
  rw [hc] at hs
  simp only [Bool.and_eq_true, Option.isNone_iff_eq_none] at hs
  obtain ⟨h2, h3⟩ := hs
  unfold localFilePath at h2 hd ⊢
  simp only [downloadOne, copyFile, hc, h2, h3, World.log_content]
  have := World.write_content_same
    (((w.log (.openRemote i f true)).write (pathJoin dir (pathBase f)) []).log
      (.create i (pathJoin dir (pathBase f)) true))
    (pathJoin dir (pathBase f)) c (by simpa using hd)
  simpa using this

theorem downloadOne_openFailed (env : Env) (dir : String) (i : Nat) (f : String) (w : World)
    (err : String) (h : env.remoteOpen i f = .error err) :
    downloadOne env dir i f w = (some (errOpen f err), w.log (.openRemote i f false)) := by
  unfold downloadOne
  simp [h]

theorem downloadOne_createFailed (env : Env) (dir : String) (i : Nat) (f : String) (w : World)
    (c : Bytes) (err : String) (h1 : env.remoteOpen i f = .ok c)
    (h2 : env.localCreate i (localFilePath dir f) = some err) :
    downloadOne env dir i f w
      = (some (errCreate (localFilePath dir f) err),
         ((w.log (.openRemote i f true)).log (.create i (localFilePath dir f) false)).log (.closeSrc i)) := by
  unfold localFilePath at h2
  unfold downloadOne
  simp [h1, h2, localFilePath]

theorem downloadOne_copyFailed (env : Env) (dir : String) (i : Nat) (f : String) (w : World)
    (c : Bytes) (n : Nat) (err : String) (h1 : env.remoteOpen i f = .ok c)
    (h2 : env.localCreate i (localFilePath dir f) = none)
    (h3 : env.copyFault i = some (n, err)) :
    downloadOne env dir i f w
      = (some (errCopy f (localFilePath dir f) err),
         ((((((w.log (.openRemote i f true)).write (localFilePath dir f) []).log
              (.create i (localFilePath dir f) true)).write (localFilePath dir f) (c.take n)).log
              (.copy i false)).log (.closeSrc i)).log (.closeDst i)) := by
  unfold localFilePath at h2
  unfold downloadOne copyFile
  simp [h1, h2, h3, localFilePath]

/-! ## The loop as a whole -/

theorem downloadFilesFrom_cons (env : Env) (dir : String) (i : Nat) (f : String)
    (fs : List String) (w : World) :
    downloadFilesFrom env dir i (f :: fs) w
      = if succeedsAt env dir i f then downloadFilesFrom env dir (i + 1) fs (downloadOne env dir i f w).2
        else downloadOne env dir i f w := by
  have h := downloadOne_isNone env dir i f w
  rw [downloadFilesFrom]
  cases hd : downloadOne env dir i f w with
  | mk r w1 =>
    rw [hd] at h
    cases r with
    | none => simp [h.mp rfl]
    | some e =>
      have : succeedsAt env dir i f = false := by
        cases hs : succeedsAt env dir i f with
        | false => rfl
        | true => exact absurd (h.mpr hs) (by simp)
      simp [this]

theorem downloadFilesFrom_trace (env : Env) (dir : String) (fs : List String) :
    ∀ (i : Nat) (w : World),
      (downloadFilesFrom env dir i fs w).2.trace = w.trace ++ runEvents env dir i fs := by
  induction fs with
  | nil => intro i w; simp [downloadFilesFrom, runEvents]
  | cons f fs ih =>
    intro i w
    rw [downloadFilesFrom_cons, runEvents]
    have ht := downloadOne_trace env dir i f w
    cases hs : succeedsAt env dir i f with
    | false => simpa [hs] using ht
    | true =>
      simp only [hs, if_true] at ht ⊢
      rw [ih, ht, List.append_assoc]

/-- The loop changes neither the file a path leads to nor which files are devices. -/
theorem downloadFilesFrom_fileOf (env : Env) (dir : String) (fs : List String) :
    ∀ (i : Nat) (w : World),
      (downloadFilesFrom env dir i fs w).2.fileOf = w.fileOf ∧
      (downloadFilesFrom env dir i fs w).2.device = w.device := by
  induction fs with
  | nil => intro i w; simp [downloadFilesFrom]
  | cons f fs ih =>
    intro i w
    rw [downloadFilesFrom_cons]
    have h1 := downloadOne_fileOf env dir i f w
    cases hs : succeedsAt env dir i f with
    | false => simpa using h1
    | true =>
      simp only [if_true]
      have := ih (i + 1) (downloadOne env dir i f w).2
      exact ⟨this.1.trans h1.1, this.2.trans h1.2⟩

/-- The loop leaves every file that no destination of the list leads to as it was. -/
theorem downloadFilesFrom_frame (env : Env) (dir : String) (g : String) (fs : List String) :
    ∀ (i : Nat) (w : World), (∀ f ∈ fs, g ≠ w.fileOf (localFilePath dir f)) →
      (downloadFilesFrom env dir i fs w).2.content g = w.content g := by
  induction fs with
  | nil => intro i w _; simp [downloadFilesFrom]
  | cons f fs ih =>
    intro i w h
    rw [downloadFilesFrom_cons]
    have h1 := downloadOne_frame env dir i f w g (h f (List.mem_cons_self _ _))
    have h2 := (downloadOne_fileOf env dir i f w).1
    cases hs : succeedsAt env dir i f with
    | false => simpa using h1
    | true =>
      simp only [if_true]
      rw [ih _ _ (fun x hx => by rw [h2]; exact h x (List.mem_cons_of_mem _ hx)), h1]

/-- When the first files all succeed the loop runs through them and goes on with the rest. -/
theorem downloadFilesFrom_append (env : Env) (dir : String) (pre rest : List String) :
    ∀ (i : Nat) (w : World),
      (∀ (j : Nat) (h : j < pre.length), succeedsAt env dir (i + j) pre[j] = true) →
      (downloadFilesFrom env dir i pre w).1 = none ∧
      downloadFilesFrom env dir i (pre ++ rest) w
        = downloadFilesFrom env dir (i + pre.length) rest (downloadFilesFrom env dir i pre w).2 := by
  induction pre with
  | nil => intro i w _; simp [downloadFilesFrom]
  | cons f fs ih =>
    intro i w h
    have h0 : succeedsAt env dir i f = true := by simpa using h 0 (by simp)
    have hrest : ∀ (j : Nat) (hj : j < fs.length), succeedsAt env dir (i + 1 + j) fs[j] = true := by
      intro j hj
      have := h (j + 1) (by simpa using hj)
      simpa [Nat.add_assoc, Nat.add_comm 1 j] using this
    have := ih (i + 1) (downloadOne env dir i f w).2 hrest
    rw [List.cons_append, downloadFilesFrom_cons, downloadFilesFrom_cons]
    simp only [h0, if_true, List.length_cons]
    refine ⟨this.1, ?_⟩
    rw [this.2]
    congr 1
    omega

theorem runEvents_allSucceed (env : Env) (dir : String) (fs : List String) :
    ∀ (i : Nat), (∀ (j : Nat) (h : j < fs.length), succeedsAt env dir (i + j) fs[j] = true) →
      runEvents env dir i fs = successTrace dir i fs := by
  induction fs with
  | nil => intro i _; rfl
  | cons f fs ih =>
    intro i h
    have h0 : succeedsAt env dir i f = true := by simpa using h 0 (by simp)
    have hrest : ∀ (j : Nat) (hj : j < fs.length), succeedsAt env dir (i + 1 + j) fs[j] = true := by
      intro j hj
      have := h (j + 1) (by simpa using hj)
      simpa [Nat.add_assoc, Nat.add_comm 1 j] using this
    simp [runEvents, successTrace, h0, ih (i + 1) hrest]

theorem printedLines_append (a b : List Event) :
    printedLines (a ++ b) = printedLines a ++ printedLines b := by
  simp [printedLines, List.filterMap_append]

theorem printedLines_successTrace (dir : String) (fs : List String) :
    ∀ (i : Nat), printedLines (successTrace dir i fs)
      = fs.map (fun f => downloadedLine f (localFilePath dir f)) := by
  induction fs with
  | nil => intro i; rfl
  | cons f fs ih =>
    intro i
    rw [successTrace, printedLines_append, ih]
    simp [printedLines, successEvents]

theorem printedLines_failureEvents (env : Env) (dir : String) (i : Nat) (f : String) :
    printedLines (failureEvents env dir i f) = [] := by
  unfold failureEvents
  cases env.remoteOpen i f with
  | error e => simp [printedLines]
  | ok c =>
    cases env.localCreate i (localFilePath dir f) with
    | some e => simp [printedLines]
    | none => simp [printedLines]

theorem newEvents_of_trace (w w1 : World) (es : List Event) (h : w1.trace = w.trace ++ es) :
    newEvents w w1 = es := by
  simp [newEvents, h]

/-- The calls of the loop on `fs` from position `i` belong to positions `i`, ..., `i + fs.length - 1`. -/
theorem runEvents_position (env : Env) (dir : String) (fs : List String) :
    ∀ (i : Nat), ∀ e ∈ runEvents env dir i fs, ∀ p, e.position = some p → p < i + fs.length := by
  induction fs with
  | nil => intro i e he; simp [runEvents] at he
  | cons f fs ih =>
    intro i e he p hp
    rw [runEvents] at he
    cases hs : succeedsAt env dir i f with
    | true =>
      simp only [hs, if_true, List.mem_append] at he
      rcases he with he | he
      · simp only [successEvents, List.mem_cons, List.mem_singleton, List.not_mem_nil,
          or_false] at he
        rcases he with rfl | rfl | rfl | rfl | rfl | rfl <;>
          simp [Event.position] at hp <;> (subst hp; simp)
      · have := ih (i + 1) e he p hp
        simp only [List.length_cons]
        omega
    | false =>
      simp only [hs] at he
      unfold failureEvents at he
      cases h1 : env.remoteOpen i f with
      | error err =>
        simp [h1] at he
        subst he
        simp [Event.position] at hp
        subst hp; simp
      | ok c =>
        cases h2 : env.localCreate i (localFilePath dir f) with
        | some err =>
          simp [h1, h2] at he
          rcases he with rfl | rfl | rfl <;> simp [Event.position] at hp <;> (subst hp; simp)
        | none =>
          simp [h1, h2] at he
          rcases he with rfl | rfl | rfl | rfl | rfl <;>
            simp [Event.position] at hp <;> (subst hp; simp)

theorem replayHandles_runEvents (env : Env) (dir : String) (fs : List String) :
    ∀ (i : Nat), replayHandles [] (runEvents env dir i fs) = some [] := by
  induction fs with
  | nil => intro i; rfl
  | cons f fs ih =>
    intro i
    rw [runEvents]
    cases hs : succeedsAt env dir i f with
    | true =>
      simp only [if_true]
      have := ih (i + 1)
      simpa [successEvents, replayHandles] using this
    | false =>
      simp only [Bool.false_eq_true, if_false]
      unfold failureEvents
      cases h1 : env.remoteOpen i f with
      | error err => simp [replayHandles]
      | ok c =>
        cases h2 : env.localCreate i (localFilePath dir f) with
        | some err => simp [replayHandles]
        | none => simp [replayHandles]

/-- The run on a list whose first `k` files succeed is the turn of position `k`
in the world the first `k` turns leave. -/
theorem downloadFilesFrom_split (env : Env) (dir : String) (files : List String) (w : World)
    (k : Nat) (hk : k < files.length)
    (hprev : ∀ (j : Nat) (h : j < k), succeedsAt env dir j files[j] = true) :
    (downloadFilesFrom env dir 0 (files.take k) w).2.trace
        = w.trace ++ successTrace dir 0 (files.take k) ∧
    (∀ suffix, downloadFilesFrom env dir 0 (files.take k ++ files[k] :: suffix) w
      = downloadFilesFrom env dir k (files[k] :: suffix)
          (downloadFilesFrom env dir 0 (files.take k) w).2) := by
  have hlen : (files.take k).length = k := by simp; omega
  have hpre : ∀ (j : Nat) (h : j < (files.take k).length),
      succeedsAt env dir (0 + j) (files.take k)[j] = true := by
    intro j h
    have hj : j < k := by omega
    have := hprev j hj
    simpa using this
  refine ⟨?_, ?_⟩
  · rw [downloadFilesFrom_trace, runEvents_allSucceed env dir _ 0 hpre]
  · intro suffix
    have := (downloadFilesFrom_append env dir (files.take k) (files[k] :: suffix) 0 w hpre).2
    rw [this, hlen, Nat.zero_add]

theorem connect_trace (env : Env) (p : ConnectionParam) (w : World) :
    (connect env p w).2.trace = w.trace ++ connectEvents env p := by
  cases h1 : env.dial (p.Host ++ ":" ++ toString p.Port) p.User p.Password with
  | some e => simp [connect, connectEvents, h1, World.log]
  | none =>
    cases h2 : env.newClient with
    | some e => simp [connect, connectEvents, h1, h2, World.log]
    | none => simp [connect, connectEvents, h1, h2, World.log]

theorem connect_files (env : Env) (p : ConnectionParam) (w : World) :
    (connect env p w).2.files = w.files := by
  cases h1 : env.dial (p.Host ++ ":" ++ toString p.Port) p.User p.Password with
  | some e => simp only [connect, h1, World.log]; rfl
  | none =>
    cases h2 : env.newClient with
    | some e => simp only [connect, h1, h2, World.log]; rfl
    | none => simp only [connect, h1, h2, World.log]; rfl

/-- Every `os.Create` of the loop is on the destination of a file of the list. -/
theorem runEvents_create (env : Env) (dir : String) (fs : List String) :
    ∀ (i : Nat), ∀ e ∈ runEvents env dir i fs, ∀ (j : Nat) (q : String) (ok : Bool),
      e = .create j q ok → ∃ f ∈ fs, q = localFilePath dir f := by
  induction fs with
  | nil => intro i e he; simp [runEvents] at he
  | cons f fs ih =>
    intro i e he j q ok hq
    subst hq
    rw [runEvents] at he
    cases hs : succeedsAt env dir i f with
    | true =>
      simp only [hs, if_true, List.mem_append] at he
      rcases he with he | he
      · simp [successEvents] at he
        exact ⟨f, by simp, he.2.1⟩
      · obtain ⟨g, hg, hq⟩ := ih (i + 1) _ he j q ok rfl
        exact ⟨g, List.mem_cons_of_mem _ hg, hq⟩
    | false =>
      simp only [hs] at he
      unfold failureEvents at he
      cases h1 : env.remoteOpen i f with
      | error err => simp [h1] at he
      | ok c =>
        cases h2 : env.localCreate i (localFilePath dir f) with
        | some err =>
          simp [h1, h2] at he
          exact ⟨f, by simp, he.2.1⟩
        | none =>
          simp [h1, h2] at he
          exact ⟨f, by simp, he.2.1⟩

/-- The answer of `connect` does not depend on the world it starts in. -/
theorem connect_result (env : Env) (p : ConnectionParam) (w w1 : World) :
    (connect env p w).1 = (connect env p w1).1 := by
  cases h1 : env.dial (p.Host ++ ":" ++ toString p.Port) p.User p.Password with
  | some e => simp [connect, h1]
  | none =>
    cases h2 : env.newClient with
    | some e => simp [connect, h1, h2]
    | none => simp [connect, h1, h2]

theorem downloadRemote_of_error (env : Env) (p : ConnectionParam) (w : World) (err : String)
    (h : (connect env p w).1 = .error err) :
    downloadRemote env p w = (connect env p w).2 := by
  unfold downloadRemote
  cases hc : connect env p w with
  | mk r w1 =>
    rw [hc] at h
    simp only at h
    subst h
    rfl

theorem downloadRemote_of_ok (env : Env) (p : ConnectionParam) (w : World) (client : Client)
    (h : (connect env p w).1 = .ok client) :
    downloadRemote env p w = (downloadFiles env client p.RemoteFiles "./" (connect env p w).2).2 := by
  unfold downloadRemote
  cases hc : connect env p w with
  | mk r w1 =>
    rw [hc] at h
    simp only at h
    subst h
    rfl

theorem connectEvents_position (env : Env) (p : ConnectionParam) :
    ∀ e ∈ connectEvents env p, e.position = none ∧ e ≠ .closeClient ∧ e ≠ .closeConn ∧
      printedLines [e] = [] := by
  intro e he
  unfold connectEvents at he
  cases h1 : env.dial (p.Host ++ ":" ++ toString p.Port) p.User p.Password with
  | some err =>
    simp [h1] at he
    subst he
    simp [Event.position, printedLines]
  | none =>
    cases h2 : env.newClient with
    | some err =>
      simp [h1, h2] at he
      rcases he with rfl | rfl <;> simp [Event.position, printedLines]
    | none =>
      simp [h1, h2] at he
      rcases he with rfl | rfl <;> simp [Event.position, printedLines]

theorem printedLines_connectEvents (env : Env) (p : ConnectionParam) :
    printedLines (connectEvents env p) = [] := by
  cases h1 : env.dial (p.Host ++ ":" ++ toString p.Port) p.User p.Password with
  | some err => simp [connectEvents, h1, printedLines]
  | none =>
    cases h2 : env.newClient with
    | some err => simp [connectEvents, h1, h2, printedLines]
    | none => simp [connectEvents, h1, h2, printedLines]

/-- The loop never releases the session or the connection. -/
theorem runEvents_no_release (env : Env) (dir : String) (fs : List String) :
    ∀ (i : Nat), ∀ e ∈ runEvents env dir i fs, e ≠ .closeClient ∧ e ≠ .closeConn := by
  induction fs with
  | nil => intro i e he; simp [runEvents] at he
  | cons f fs ih =>
    intro i e he
    rw [runEvents] at he
    cases hs : succeedsAt env dir i f with
    | true =>
      simp only [hs, if_true, List.mem_append] at he
      rcases he with he | he
      · simp only [successEvents, List.mem_cons, List.mem_singleton, List.not_mem_nil,
          or_false] at he
        rcases he with rfl | rfl | rfl | rfl | rfl | rfl <;> simp
      · exact ih (i + 1) e he
    | false =>
      simp only [hs] at he
      unfold failureEvents at he
      cases h1 : env.remoteOpen i f with
      | error err =>
        simp [h1] at he
        subst he
        simp
      | ok c =>
        cases h2 : env.localCreate i (localFilePath dir f) with
        | some err =>
          simp [h1, h2] at he
          rcases he with rfl | rfl | rfl <;> simp
        | none =>
          simp [h1, h2] at he
          rcases he with rfl | rfl | rfl | rfl | rfl <;> simp

/-- The loop writes the success lines of the turns before the first failing one. -/
theorem printedLines_runEvents (env : Env) (dir : String) (fs : List String) :
    ∀ (i : Nat), printedLines (runEvents env dir i fs)
      = (fs.take (successCount env dir i fs)).map
          (fun f => downloadedLine f (localFilePath dir f)) := by
  induction fs with
  | nil => intro i; rfl
  | cons f fs ih =>
    intro i
    rw [runEvents, successCount]
    cases hs : succeedsAt env dir i f with
    | true =>
      simp only [if_true]
      rw [printedLines_append, ih]
      simp [printedLines, successEvents]
    | false =>
      simp [printedLines_failureEvents]

/-- The calls of a run: those of `connect`, then those of the loop when `connect` succeeded. -/
theorem downloadRemote_trace (env : Env) (p : ConnectionParam) (w : World) :
    (∀ err, (connect env p w).1 = .error err →
      (downloadRemote env p w).trace = w.trace ++ connectEvents env p) ∧
    (∀ client, (connect env p w).1 = .ok client →
      (downloadRemote env p w).trace
        = w.trace ++ (connectEvents env p ++ runEvents env "./" 0 p.RemoteFiles)) := by
  refine ⟨?_, ?_⟩
  · intro err h
    rw [downloadRemote_of_error env p w err h, connect_trace]
  · intro client h
    rw [downloadRemote_of_ok env p w client h]
    unfold downloadFiles
    rw [downloadFilesFrom_trace, connect_trace, List.append_assoc]

/-! ## The properties -/

/-- C3. When every open, create and copy step succeeds for every file of the
list (duplicates allowed), `downloadFiles` returns no error, the calls it made
are exactly the successful turns of the files in list order, each turn being
open, create, copy, release of both handles and the success line, so that a
file is finished before the next one is opened, and it has written exactly one
success line per list entry, in list order. -/
theorem downloadFiles_all_succeed (env : Env) (client : Client) (files : List String)
    (dir : String) (w : World)
    (hall : ∀ (j : Nat) (h : j < files.length), succeedsAt env dir j files[j] = true) :
    (downloadFiles env client files dir w).1 = none ∧
    newEvents w (downloadFiles env client files dir w).2 = successTrace dir 0 files ∧
    stdout (downloadFiles env client files dir w).2
      = stdout w ++ files.map (fun f => downloadedLine f (localFilePath dir f)) ∧
    (files.map (fun f => downloadedLine f (localFilePath dir f))).length = files.length := by
  have hall0 : ∀ (j : Nat) (h : j < files.length), succeedsAt env dir (0 + j) files[j] = true := by
    intro j h; simpa using hall j h
  have htrace : (downloadFiles env client files dir w).2.trace
      = w.trace ++ successTrace dir 0 files := by
    unfold downloadFiles
    rw [downloadFilesFrom_trace, runEvents_allSucceed env dir files 0 hall0]
  refine ⟨?_, newEvents_of_trace _ _ _ htrace, ?_, by simp⟩
  · have := (downloadFilesFrom_append env dir files [] 0 w hall0).1
    simpa [downloadFiles] using this
  · unfold stdout
    rw [htrace, printedLines_append, printedLines_successTrace]

theorem downloadFiles_all_succeed_witness :
    (∀ (j : Nat) (h : j < ["/data/a.txt", "/data/b.txt", "/data/a.txt"].length),
      succeedsAt envAllOk "./" j ["/data/a.txt", "/data/b.txt", "/data/a.txt"][j] = true) ∧
    (downloadFiles envAllOk ⟨"h:22"⟩ ["/data/a.txt", "/data/b.txt", "/data/a.txt"] "./"
      emptyWorld).1 = none ∧
    stdout (downloadFiles envAllOk ⟨"h:22"⟩ ["/data/a.txt", "/data/b.txt", "/data/a.txt"] "./"
      emptyWorld).2
      = ["Downloaded /data/a.txt to a.txt\n", "Downloaded /data/b.txt to b.txt\n",
         "Downloaded /data/a.txt to a.txt\n"] :=
  ⟨by decide,
   (downloadFiles_all_succeed envAllOk ⟨"h:22"⟩ ["/data/a.txt", "/data/b.txt", "/data/a.txt"]
      "./" emptyWorld (by decide)).1,
   by decide⟩

/-- C10. Whatever the outside world answers, when `downloadFiles` returns
(with or without an error) the calls it made are successful turns followed by
at most one failing turn (a failed open; an open, a failed create and the
release of the remote handle; or an open, a create, a failed copy and the
release of both handles), and they replay without a fault and leave no handle
open: every release is of a handle that is open, so
no handle is released twice; none is left open at the end, so every opened
remote handle and every created local handle is released; and every remote
open happens with no handle open, so both handles of a file are released
before the next file is opened. -/
theorem downloadFiles_handles_balanced (env : Env) (client : Client) (files : List String)
    (dir : String) (w : World) :
    newEvents w (downloadFiles env client files dir w).2 = runEvents env dir 0 files ∧
    replayHandles [] (newEvents w (downloadFiles env client files dir w).2) = some [] := by
  have htrace : (downloadFiles env client files dir w).2.trace
      = w.trace ++ runEvents env dir 0 files := by
    unfold downloadFiles
    rw [downloadFilesFrom_trace]
  rw [newEvents_of_trace _ _ _ htrace]
  exact ⟨rfl, replayHandles_runEvents env dir files 0⟩

/-- C1. Stop on first failure, with positions counted from 0 (position `k`
here is the claim's position `k + 1`).  When the files before position `k`
each open, create and copy successfully and the file at position `k` fails,
`downloadFiles` returns an error whose text tells the failing step and the
file: `failed to open remote file <remote>: <cause>`, `failed to create local
file <destination>: <cause>` or `failed to copy file <remote> to
<destination>: <cause>`.  The calls it made are the successful turns of the
files before `k`, in list order, followed by the calls of the failing turn up
to the failing step and the release of the handles opened in it.  It wrote the
lines `Downloaded <remote> to <destination>` of the files before `k`, in list
order, and no other line.  No call belongs to a position after `k`, the run is
the run on the first `k + 1` files, and every `os.Create` it made is on the
destination of one of these. -/
theorem downloadFiles_stops_at_first_failure (env : Env) (client : Client)
    (files : List String) (dir : String) (w : World) (k : Nat) (hk : k < files.length)
    (hprev : ∀ (j : Nat) (h : j < k), succeedsAt env dir j files[j] = true)
    (hfail : succeedsAt env dir k files[k] = false) :
    (downloadFiles env client files dir w).1 ≠ none ∧
    (∀ err, env.remoteOpen k files[k] = .error err →
      (downloadFiles env client files dir w).1
        = some ("failed to open remote file " ++ files[k] ++ ": " ++ err) ∧
      newEvents w (downloadFiles env client files dir w).2
        = successTrace dir 0 (files.take k) ++ [.openRemote k files[k] false]) ∧
    (∀ c err, env.remoteOpen k files[k] = .ok c →
      env.localCreate k (localFilePath dir files[k]) = some err →
      (downloadFiles env client files dir w).1
        = some ("failed to create local file " ++ localFilePath dir files[k] ++ ": " ++ err) ∧
      newEvents w (downloadFiles env client files dir w).2
        = successTrace dir 0 (files.take k)
          ++ [.openRemote k files[k] true, .create k (localFilePath dir files[k]) false,
              .closeSrc k]) ∧
    (∀ c n err, env.remoteOpen k files[k] = .ok c →
      env.localCreate k (localFilePath dir files[k]) = none →
      env.copyFault k = some (n, err) →
      (downloadFiles env client files dir w).1
        = some ("failed to copy file " ++ files[k] ++ " to " ++ localFilePath dir files[k]
            ++ ": " ++ err) ∧
      newEvents w (downloadFiles env client files dir w).2
        = successTrace dir 0 (files.take k)
          ++ [.openRemote k files[k] true, .create k (localFilePath dir files[k]) true,
              .copy k false, .closeSrc k, .closeDst k]) ∧
    stdout (downloadFiles env client files dir w).2
      = stdout w ++ (files.take k).map
          (fun f => "Downloaded " ++ f ++ " to " ++ localFilePath dir f ++ "\n") ∧
    (∀ e ∈ newEvents w (downloadFiles env client files dir w).2,
      ∀ j, k < j → e.position ≠ some j) ∧
    downloadFiles env client files dir w = downloadFiles env client (files.take (k + 1)) dir w ∧
    (∀ e ∈ newEvents w (downloadFiles env client files dir w).2,
      ∀ (j : Nat) (q : String) (ok : Bool), e = .create j q ok →
        ∃ f ∈ files.take (k + 1), q = localFilePath dir f) := by
  obtain ⟨hpre, hsplit⟩ := downloadFilesFrom_split env dir files w k hk hprev
  -- the run, and the run on the first `k + 1` files, are the failing turn
  have hfiles : files = files.take k ++ files[k] :: files.drop (k + 1) := by
    rw [List.getElem_cons_drop, List.take_append_drop]
  have htake : files.take (k + 1) = files.take k ++ files[k] :: [] := by
    rw [List.take_succ, List.getElem?_eq_getElem hk]; rfl
  have hrun : downloadFiles env client files dir w
      = downloadOne env dir k files[k] (downloadFilesFrom env dir 0 (files.take k) w).2 := by
    unfold downloadFiles
    conv_lhs => rw [hfiles]
    rw [hsplit, downloadFilesFrom_cons, hfail]
    simp
  have hrun1 : downloadFiles env client (files.take (k + 1)) dir w
      = downloadOne env dir k files[k] (downloadFilesFrom env dir 0 (files.take k) w).2 := by
    unfold downloadFiles
    rw [htake, hsplit, downloadFilesFrom_cons, hfail]
    simp
  have htrace : (downloadFiles env client files dir w).2.trace
      = w.trace ++ (successTrace dir 0 (files.take k) ++ failureEvents env dir k files[k]) := by
    rw [hrun, downloadOne_trace, hfail, hpre]
    simp
  have hnew := newEvents_of_trace _ _ _ htrace
  have htrace1 : (downloadFiles env client (files.take (k + 1)) dir w).2.trace
      = w.trace ++ runEvents env dir 0 (files.take (k + 1)) := by
    unfold downloadFiles
    rw [downloadFilesFrom_trace]
  refine ⟨?_, ?_, ?_, ?_, ?_, ?_, ?_, ?_⟩
  · rw [hrun]
    intro h
    have := (downloadOne_isNone env dir k files[k] _).mp h
    rw [hfail] at this
    exact absurd this (by simp)
  · intro err h1
    refine ⟨?_, ?_⟩
    · rw [hrun, downloadOne_openFailed env dir k _ _ err h1]
      rfl
    · rw [hnew]; simp [failureEvents, h1]
  · intro c err h1 h2
    refine ⟨?_, ?_⟩
    · rw [hrun, downloadOne_createFailed env dir k _ _ c err h1 h2]
      rfl
    · rw [hnew]; simp [failureEvents, h1, h2]
  · intro c n err h1 h2 h3
    refine ⟨?_, ?_⟩
    · rw [hrun, downloadOne_copyFailed env dir k _ _ c n err h1 h2 h3]
      rfl
    · rw [hnew]; simp [failureEvents, h1, h2]
  · unfold stdout
    rw [htrace, printedLines_append, printedLines_append, printedLines_successTrace,
      printedLines_failureEvents]
    simp [downloadedLine]
  · intro e he j hj hp
    rw [hrun, ← hrun1, newEvents_of_trace _ _ _ htrace1] at he
    have := runEvents_position env dir _ 0 e he j hp
    simp at this
    omega
  · rw [hrun, hrun1]
  · intro e he j q ok hq
    rw [hrun, ← hrun1, newEvents_of_trace _ _ _ htrace1] at he
    exact runEvents_create env dir _ 0 e he j q ok hq

theorem downloadFiles_stops_at_first_failure_witness :
    (succeedsAt envMissing "./" 0 "/missing.txt" = false ∧
      (downloadFiles envMissing ⟨"h:22"⟩ ["/missing.txt", "/data/b.txt"] "./" emptyWorld).1
        = some "failed to open remote file /missing.txt: file does not exist" ∧
      newEvents emptyWorld
          (downloadFiles envMissing ⟨"h:22"⟩ ["/missing.txt", "/data/b.txt"] "./" emptyWorld).2
        = [.openRemote 0 "/missing.txt" false]) ∧
    (succeedsAt envCreateFails "./" 0 "/data/a.txt" = true ∧
      succeedsAt envCreateFails "./" 1 "/data/b.txt" = false ∧
      (downloadFiles envCreateFails ⟨"h:22"⟩ ["/data/a.txt", "/data/b.txt", "/data/c.txt"] "./"
          emptyWorld).1
        = some "failed to create local file b.txt: permission denied" ∧
      stdout (downloadFiles envCreateFails ⟨"h:22"⟩ ["/data/a.txt", "/data/b.txt", "/data/c.txt"]
          "./" emptyWorld).2
        = ["Downloaded /data/a.txt to a.txt\n"]) ∧
    (succeedsAt envCopyFails "./" 1 "/data/b.txt" = false ∧
      (downloadFiles envCopyFails ⟨"h:22"⟩ ["/data/a.txt", "/data/b.txt", "/data/c.txt"] "./"
          emptyWorld).1
        = some "failed to copy file /data/b.txt to b.txt: connection lost") :=
  ⟨⟨by decide,
    (((downloadFiles_stops_at_first_failure envMissing ⟨"h:22"⟩ ["/missing.txt", "/data/b.txt"]
        "./" emptyWorld 0 (by decide) (by decide) (by decide)).2.1
        "file does not exist" rfl).1).trans (by decide),
    ((downloadFiles_stops_at_first_failure envMissing ⟨"h:22"⟩ ["/missing.txt", "/data/b.txt"]
        "./" emptyWorld 0 (by decide) (by decide) (by decide)).2.1
        "file does not exist" rfl).2⟩,
   ⟨by decide, by decide,
    (((downloadFiles_stops_at_first_failure envCreateFails ⟨"h:22"⟩
        ["/data/a.txt", "/data/b.txt", "/data/c.txt"] "./" emptyWorld 1 (by decide) (by decide)
        (by decide)).2.2.1 [2] "permission denied" rfl (by decide)).1).trans (by decide),
    ((downloadFiles_stops_at_first_failure envCreateFails ⟨"h:22"⟩
        ["/data/a.txt", "/data/b.txt", "/data/c.txt"] "./" emptyWorld 1 (by decide) (by decide)
        (by decide)).2.2.2.2.1).trans (by decide)⟩,
   ⟨by decide,
    (((downloadFiles_stops_at_first_failure envCopyFails ⟨"h:22"⟩
        ["/data/a.txt", "/data/b.txt", "/data/c.txt"] "./" emptyWorld 1 (by decide) (by decide)
        (by decide)).2.2.2.1 [1, 1, 2, 3, 4] 3 "connection lost" rfl (by decide)
        (by decide)).1).trans (by decide)⟩⟩

/-- C2, as stated, fails when two list entries have the same base name: with
`/a/x.txt` holding the byte 1 and `/b/x.txt` holding the byte 2, every step
succeeds, both files go to `x.txt`, and after the run `x.txt` holds the bytes
of the second file, not those of the first.  It fails as well when a
destination is a link to another destination (`x.txt` a link to `y.txt`: after
`/a/y.txt` then `/b/x.txt`, `y.txt` holds the bytes of the second file), and
when a destination is a device (`/dev/null` keeps nothing). -/
theorem downloadFiles_content_collision :
    ((∀ (j : Nat) (h : j < ["/a/x.txt", "/b/x.txt"].length),
        succeedsAt envAllOk "./" j ["/a/x.txt", "/b/x.txt"][j] = true) ∧
      envAllOk.remoteOpen 0 "/a/x.txt" = .ok [1] ∧
      (downloadFiles envAllOk ⟨"h:22"⟩ ["/a/x.txt", "/b/x.txt"] "./" emptyWorld).2.files
        (localFilePath "./" "/a/x.txt") = some [2] ∧
      ¬ ContentFidelity envAllOk ⟨"h:22"⟩ ["/a/x.txt", "/b/x.txt"] "./" emptyWorld) ∧
    ((downloadFiles envAllOk ⟨"h:22"⟩ ["/a/y.txt", "/b/x.txt"] "./" linkedWorld).2.files
        (localFilePath "./" "/a/y.txt") = some [2] ∧
      ¬ ContentFidelity envAllOk ⟨"h:22"⟩ ["/a/y.txt", "/b/x.txt"] "./" linkedWorld) ∧
    (localFilePath "/dev" "/x/null" = "/dev/null" ∧
      (downloadFiles envAllOk ⟨"h:22"⟩ ["/x/null"] "/dev" deviceWorld).2.files
        (localFilePath "/dev" "/x/null") = some [] ∧
      ¬ ContentFidelity envAllOk ⟨"h:22"⟩ ["/x/null"] "/dev" deviceWorld) := by
  refine ⟨⟨by decide, rfl, by decide, ?_⟩, ⟨by decide, ?_⟩, ⟨by decide, by decide, ?_⟩⟩
  · intro h
    have h0 := h 0 (by decide) [1] rfl
    exact absurd h0 (by decide)
  · intro h
    have h0 := h 0 (by decide) [1] rfl
    exact absurd h0 (by decide)
  · intro h
    have h0 := h 0 (by decide) [1] rfl
    exact absurd h0 (by decide)

/-- C2, amended.  When every open, create and copy step succeeds for every
file of the list, then after `downloadFiles` returns, for every position `i`
whose destination `path.Join(localDir, path.Base(remoteFiles[i]))` leads to a
file that is not a device and that the destination of no later list entry
leads to (by the same path or through a link), what is read at that
destination is exactly the bytes the remote file of position `i` delivered.
(So when the destinations lead to pairwise distinct files, none of them a
device, each of the `N` local files equals its remote file; when several lead
to one file, the last entry wins.) -/
theorem downloadFiles_content (env : Env) (client : Client) (files : List String)
    (dir : String) (w : World)
    (hall : ∀ (j : Nat) (h : j < files.length), succeedsAt env dir j files[j] = true)
    (i : Nat) (hi : i < files.length) (c : Bytes) (hc : env.remoteOpen i files[i] = .ok c)
    (hdev : w.device (w.fileOf (localFilePath dir files[i])) = false)
    (hlast : ∀ (j : Nat) (h : j < files.length), i < j →
      w.fileOf (localFilePath dir files[j]) ≠ w.fileOf (localFilePath dir files[i])) :
    (downloadFiles env client files dir w).2.files (localFilePath dir files[i]) = some c := by
  obtain ⟨_, hsplit⟩ := downloadFilesFrom_split env dir files w i hi (fun j h => hall j (by omega))
  have hfiles : files = files.take i ++ files[i] :: files.drop (i + 1) := by
    rw [List.getElem_cons_drop, List.take_append_drop]
  have hrun : downloadFiles env client files dir w
      = downloadFilesFrom env dir (i + 1) (files.drop (i + 1))
          (downloadOne env dir i files[i] (downloadFilesFrom env dir 0 (files.take i) w).2).2 := by
    unfold downloadFiles
    conv_lhs => rw [hfiles]
    rw [hsplit, downloadFilesFrom_cons, hall i hi]
    simp
  -- the file a path leads to, and which files are devices, are as in `w` throughout
  obtain ⟨hf1, hd1⟩ := downloadFilesFrom_fileOf env dir (files.take i) 0 w
  obtain ⟨hf2, _⟩ := downloadOne_fileOf env dir i files[i]
    (downloadFilesFrom env dir 0 (files.take i) w).2
  obtain ⟨hf3, _⟩ := downloadFilesFrom_fileOf env dir (files.drop (i + 1)) (i + 1)
    (downloadOne env dir i files[i] (downloadFilesFrom env dir 0 (files.take i) w).2).2
  have hone := downloadOne_content env dir i files[i]
    (downloadFilesFrom env dir 0 (files.take i) w).2 c hc (hall i hi)
    (by rw [hf1, hd1]; exact hdev)
  rw [hf1] at hone
  unfold World.files
  rw [hrun, hf3, hf2, hf1, downloadFilesFrom_frame, hone]
  intro f hf
  obtain ⟨n, hn, rfl⟩ := List.getElem_of_mem hf
  simp only [List.length_drop] at hn
  have := hlast (i + 1 + n) (by omega) (by omega)
  rw [hf2, hf1]
  simpa using this.symm

theorem downloadFiles_content_witness :
    ((∀ (j : Nat) (h : j < ["/a/x.txt", "/b/y.txt", "/c/x.txt"].length),
        succeedsAt envAllOk "./" j ["/a/x.txt", "/b/y.txt", "/c/x.txt"][j] = true) ∧
      localFilePath "./" "/b/y.txt" = "y.txt" ∧
      (downloadFiles envAllOk ⟨"h:22"⟩ ["/a/x.txt", "/b/y.txt", "/c/x.txt"] "./"
        emptyWorld).2.files (localFilePath "./" "/b/y.txt") = some [2] ∧
      localFilePath "./" "/c/x.txt" = "x.txt" ∧
      (downloadFiles envAllOk ⟨"h:22"⟩ ["/a/x.txt", "/b/y.txt", "/c/x.txt"] "./"
        emptyWorld).2.files (localFilePath "./" "/c/x.txt") = some [3]) ∧
    (linkedWorld.fileOf (localFilePath "./" "/b/x.txt") = "y.txt" ∧
      (downloadFiles envAllOk ⟨"h:22"⟩ ["/a/y.txt", "/b/x.txt"] "./" linkedWorld).2.files
        (localFilePath "./" "/b/x.txt") = some [2]) :=
  ⟨⟨by decide, by decide,
    downloadFiles_content envAllOk ⟨"h:22"⟩ ["/a/x.txt", "/b/y.txt", "/c/x.txt"] "./" emptyWorld
      (by decide) 1 (by decide) [2] rfl (by decide) (by decide),
    by decide,
    downloadFiles_content envAllOk ⟨"h:22"⟩ ["/a/x.txt", "/b/y.txt", "/c/x.txt"] "./" emptyWorld
      (by decide) 2 (by decide) [3] rfl (by decide) (by decide)⟩,
   ⟨by decide,
    downloadFiles_content envAllOk ⟨"h:22"⟩ ["/a/y.txt", "/b/x.txt"] "./" linkedWorld
      (by decide) 1 (by decide) [2] rfl (by decide) (by decide)⟩⟩

/-- The calls a run makes, whatever `connect` answers, are those of `connect`
followed by calls of the loop. -/
theorem downloadRemote_events (env : Env) (p : ConnectionParam) (w : World) :
    ∃ es, newEvents w (downloadRemote env p w) = connectEvents env p ++ es ∧
      (es = [] ∨ es = runEvents env "./" 0 p.RemoteFiles) ∧
      (∀ err, (connect env p w).1 = .error err → es = []) := by
  obtain ⟨herr, hok⟩ := downloadRemote_trace env p w
  cases hc : (connect env p w).1 with
  | error err =>
    refine ⟨[], ?_, Or.inl rfl, fun _ _ => rfl⟩
    exact newEvents_of_trace _ _ _ (by rw [herr err hc]; simp)
  | ok client =>
    refine ⟨runEvents env "./" 0 p.RemoteFiles, ?_, Or.inr rfl, fun err h => by simp at h⟩
    exact newEvents_of_trace _ _ _ (hok client hc)

/-- C4, as stated, fails: in a run in which `connect` acquires a session and
the one requested file is downloaded, the session is released zero times, not
once; and in a run in which the dial succeeds and the SFTP session cannot be
opened, the connection that was opened is never released. -/
theorem downloadRemote_session_not_released :
    ((connect envAllOk { paramsTwo with RemoteFiles := ["/data/b.txt"] } emptyWorld).1
        = .ok ⟨"nas.example.org:22"⟩ ∧
      (newEvents emptyWorld
        (downloadRemote envAllOk { paramsTwo with RemoteFiles := ["/data/b.txt"] }
          emptyWorld)).count .closeClient = 0) ∧
    ((connect envNoSftp paramsTwo emptyWorld).1 = .error "subsystem request failed" ∧
      newEvents emptyWorld (downloadRemote envNoSftp paramsTwo emptyWorld)
        = [.dial "nas.example.org:22" "backup" true, .newClient false] ∧
      (newEvents emptyWorld (downloadRemote envNoSftp paramsTwo emptyWorld)).count .closeConn
        = 0) := by
  refine ⟨⟨rfl, by decide⟩, rfl, by decide, by decide⟩

/-- C4, amended.  In every run (`downloadRemote`), whatever `connect` and the
file steps answer, neither the session nor the connection is ever released:
the calls of the run contain no `client.Close()` and no `conn.Close()`, whether
all files succeed, a file fails, no file is requested or `connect` fails; and
when `connect` fails after the dial succeeded, its calls are the dial and the
failed opening of the session, so the connection it opened stays open. -/
theorem downloadRemote_never_releases (env : Env) (p : ConnectionParam) (w : World) :
    Event.closeClient ∉ newEvents w (downloadRemote env p w) ∧
    Event.closeConn ∉ newEvents w (downloadRemote env p w) ∧
    (∀ err, env.dial (p.Host ++ ":" ++ toString p.Port) p.User p.Password = none →
      env.newClient = some err →
      (connect env p w).1 = .error err ∧
      newEvents w (connect env p w).2
        = [.dial (p.Host ++ ":" ++ toString p.Port) p.User true, .newClient false]) := by
  obtain ⟨es, hes, hcases, _⟩ := downloadRemote_events env p w
  have hall : ∀ e ∈ newEvents w (downloadRemote env p w), e ≠ .closeClient ∧ e ≠ .closeConn := by
    intro e he
    rw [hes, List.mem_append] at he
    rcases he with he | he
    · have := connectEvents_position env p e he
      exact ⟨this.2.1, this.2.2.1⟩
    · rcases hcases with rfl | rfl
      · simp at he
      · exact runEvents_no_release env "./" _ 0 e he
  refine ⟨fun h => (hall _ h).1 rfl, fun h => (hall _ h).2 rfl, ?_⟩
  intro err h1 h2
  refine ⟨by simp [connect, h1, h2], ?_⟩
  exact newEvents_of_trace _ _ _ (by rw [connect_trace]; simp [connectEvents, h1, h2])

/-- C5. When `connect` returns an error (the dial, which includes
authentication, or the opening of the SFTP session failed), `downloadRemote`
ends in the world `connect` leaves: it performs no call on a file (no remote
open, no local create, no copy), writes no line, so the run has no file
outcome, and the local filesystem is the same after the run as before it. -/
theorem downloadRemote_connect_fails (env : Env) (p : ConnectionParam) (w : World)
    (err : String) (h : (connect env p w).1 = .error err) :
    downloadRemote env p w = (connect env p w).2 ∧
    (downloadRemote env p w).files = w.files ∧
    (∀ e ∈ newEvents w (downloadRemote env p w), e.position = none) ∧
    stdout (downloadRemote env p w) = stdout w := by
  have hrun := downloadRemote_of_error env p w err h
  have htrace := (downloadRemote_trace env p w).1 err h
  refine ⟨hrun, ?_, ?_, ?_⟩
  · rw [hrun, connect_files]
  · intro e he
    rw [newEvents_of_trace _ _ _ htrace] at he
    exact (connectEvents_position env p e he).1
  · unfold stdout
    rw [htrace, printedLines_append, printedLines_connectEvents]
    simp

theorem downloadRemote_connect_fails_witness :
    ((connect envHostDown paramsTwo emptyWorld).1 = .error "connection refused" ∧
      (downloadRemote envHostDown paramsTwo emptyWorld).files = emptyWorld.files ∧
      stdout (downloadRemote envHostDown paramsTwo emptyWorld) = stdout emptyWorld) ∧
    ((connect envNoSftp paramsTwo emptyWorld).1 = .error "subsystem request failed" ∧
      (downloadRemote envNoSftp paramsTwo emptyWorld).files = emptyWorld.files) :=
  ⟨⟨rfl,
    (downloadRemote_connect_fails envHostDown paramsTwo emptyWorld "connection refused" rfl).2.1,
    (downloadRemote_connect_fails envHostDown paramsTwo emptyWorld "connection refused" rfl).2.2.2⟩,
   ⟨rfl,
    (downloadRemote_connect_fails envNoSftp paramsTwo emptyWorld "subsystem request failed"
      rfl).2.1⟩⟩

/-- C6, as stated, fails: a run in which `connect` fails writes the start line
and nothing else, and so does a run in which `downloadFiles` returns the error
of a failed open; no line describes the failure, and no line describes the
connection. -/
theorem downloadAndShowTime_silent_failures :
    ((connect envHostDown paramsTwo emptyWorld).1 = .error "connection refused" ∧
      stdout (downloadAndShowTime envHostDown paramsTwo emptyWorld)
        = ["Start download at 2024-05-01 12:00:00\n"]) ∧
    ((connect envMissing paramsTwo emptyWorld).1 = .ok ⟨"nas.example.org:22"⟩ ∧
      (downloadFiles envMissing ⟨"nas.example.org:22"⟩ paramsTwo.RemoteFiles "./" emptyWorld).1
        = some "failed to open remote file /missing.txt: file does not exist" ∧
      stdout (downloadAndShowTime envMissing paramsTwo emptyWorld)
        = ["Start download at 2024-05-01 12:00:00\n"]) := by
  refine ⟨⟨rfl, by decide⟩, rfl, by decide, by decide⟩

/-- C6, amended.  Every run (`downloadAndShowTime`) writes the start line
first.  When `connect` fails it writes nothing else.  When `connect` succeeds
it then writes one success line for each file that was opened, created and
copied before the first failing file, in list order, and nothing else: no line
is written for the connection, and none for the error `connect` or
`downloadFiles` returns, which `downloadRemote` drops. -/
theorem downloadAndShowTime_stdout (env : Env) (p : ConnectionParam) (w : World) :
    (∀ err, (connect env p w).1 = .error err →
      stdout (downloadAndShowTime env p w) = stdout w ++ [startLine env]) ∧
    (∀ client, (connect env p w).1 = .ok client →
      stdout (downloadAndShowTime env p w)
        = stdout w ++ startLine env ::
            (p.RemoteFiles.take (successCount env "./" 0 p.RemoteFiles)).map
              (fun f => downloadedLine f (localFilePath "./" f))) := by
  have hstart : printedLines (w.log (.print (startLine env))).trace
      = printedLines w.trace ++ [startLine env] := by
    simp [World.log, printedLines]
  obtain ⟨herr, hok⟩ := downloadRemote_trace env p (w.log (.print (startLine env)))
  refine ⟨?_, ?_⟩
  · intro err h
    rw [connect_result env p w (w.log (.print (startLine env)))] at h
    unfold stdout downloadAndShowTime
    rw [herr err h, printedLines_append, printedLines_connectEvents, hstart]
    simp
  · intro client h
    rw [connect_result env p w (w.log (.print (startLine env)))] at h
    unfold stdout downloadAndShowTime
    rw [hok client h, printedLines_append, printedLines_append, printedLines_connectEvents,
      printedLines_runEvents, hstart]
    simp

/-- C7, as stated, fails: for a well-formed configuration with an empty list
of files, a run whose dial is refused has a connection-phase error. -/
theorem downloadRemote_empty_list_connect_error :
    paramsNone.wellFormed = true ∧ paramsNone.RemoteFiles = [] ∧
    (connect envHostDown paramsNone emptyWorld).1 = .error "connection refused" ∧
    newEvents emptyWorld (downloadRemote envHostDown paramsNone emptyWorld)
      = [.dial "nas.example.org:22" "backup" false] := by
  refine ⟨by decide, rfl, rfl, by decide⟩

/-- C7, amended.  For every `ConnectionParam` whose `RemoteFiles` is empty, a
run (`downloadRemote`) attempts the connection and does nothing else: it ends
in the world `connect` leaves, with no call on a file, no line written and the
local filesystem as it was, so it has zero file outcomes; the answer of
`connect` is the one it gives for any other list of files, so the empty list
causes no connection-phase error, and the run has one exactly when the dial or
the opening of the session fails.  `downloadFiles` on the empty list returns
no error and leaves the world as it is: no open, create or copy. -/
theorem downloadRemote_empty_list (env : Env) (p : ConnectionParam) (w : World)
    (hempty : p.RemoteFiles = []) :
    downloadRemote env p w = (connect env p w).2 ∧
    (downloadRemote env p w).files = w.files ∧
    (∀ e ∈ newEvents w (downloadRemote env p w), e.position = none) ∧
    stdout (downloadRemote env p w) = stdout w ∧
    (∀ files, connect env { p with RemoteFiles := files } w = connect env p w) ∧
    (∀ (client : Client) (dir : String) (w1 : World),
      downloadFiles env client [] dir w1 = (none, w1)) := by
  have hrun : downloadRemote env p w = (connect env p w).2 := by
    cases hc : (connect env p w).1 with
    | error err => exact downloadRemote_of_error env p w err hc
    | ok client =>
      rw [downloadRemote_of_ok env p w client hc, hempty]
      rfl
  have htrace : (downloadRemote env p w).trace = w.trace ++ connectEvents env p := by
    rw [hrun, connect_trace]
  refine ⟨hrun, ?_, ?_, ?_, fun _ => rfl, fun _ _ _ => rfl⟩
  · rw [hrun, connect_files]
  · intro e he
    rw [newEvents_of_trace _ _ _ htrace] at he
    exact (connectEvents_position env p e he).1
  · unfold stdout
    rw [htrace, printedLines_append, printedLines_connectEvents]
    simp

theorem downloadRemote_empty_list_witness :
    paramsNone.RemoteFiles = [] ∧
    (connect envAllOk paramsNone emptyWorld).1 = .ok ⟨"nas.example.org:22"⟩ ∧
    downloadRemote envAllOk paramsNone emptyWorld = (connect envAllOk paramsNone emptyWorld).2 ∧
    stdout (downloadRemote envAllOk paramsNone emptyWorld) = stdout emptyWorld :=
  ⟨rfl, rfl,
   (downloadRemote_empty_list envAllOk paramsNone emptyWorld rfl).1,
   (downloadRemote_empty_list envAllOk paramsNone emptyWorld rfl).2.2.2.1⟩

/-- C8, as stated, fails for a remote path whose base is `..`: into `./` the
remote path `..` gets the destination `..`, and into `/srv/in` the remote path
`/srv/data/..` gets the destination `/srv`; both are the parent of the local
directory, not a file under it. -/
theorem localFilePath_parent_directory :
    (pathBase ".." = ".." ∧ localFilePath "./" ".." = ".." ∧
      isFileUnder "./" (localFilePath "./" "..") = false) ∧
    (pathBase "/srv/data/.." = ".." ∧ localFilePath "/srv/in" "/srv/data/.." = "/srv" ∧
      isFileUnder "/srv/in" (localFilePath "/srv/in" "/srv/data/..") = false) := by
  decide

/-- C8, amended.  For every `localDir` and every remote path, the destination
`path.Join(localDir, path.Base(remoteFile))` depends on the remote path only
through its base, so two remote paths with the same base get the same
destination; the base keeps no directory component of the remote path (it has
no slash, or is `/` for a path of slashes); and when the base is an ordinary
file name (not `.`, `..` or `/`) the destination is the path of the entry of
that name in the cleaned `localDir`, its base is the base of the remote path,
and it is a path under `localDir`.  Every `os.Create` a run of `downloadFiles`
makes is on the destination of a file of the list. -/
theorem localFilePath_under_localDir (dir remote : String) :
    (∀ other, pathBase other = pathBase remote →
      localFilePath dir other = localFilePath dir remote) ∧
    ((pathBase remote).data = ['/'] ∨ '/' ∉ (pathBase remote).data) ∧
    (ordinaryName (pathBase remote).data = true →
      (localFilePath dir remote).data
        = childChars (pathClean dir).data (pathBase remote).data ∧
      pathBase (localFilePath dir remote) = pathBase remote ∧
      isFileUnder dir (localFilePath dir remote) = true) ∧
    (∀ (env : Env) (client : Client) (files : List String) (w : World),
      ∀ e ∈ newEvents w (downloadFiles env client files dir w).2,
        ∀ (j : Nat) (q : String) (ok : Bool), e = .create j q ok →
          ∃ f ∈ files, q = localFilePath dir f) := by
  refine ⟨?_, ?_, ?_, ?_⟩
  · intro other h
    unfold localFilePath
    rw [h]
  · exact baseChars_no_dir remote.data
  · intro hn
    have hdata : (localFilePath dir remote).data
        = childChars (pathClean dir).data (pathBase remote).data :=
      joinChars_ordinary dir.data (baseChars remote.data) hn
    have hbase : baseChars (localFilePath dir remote).data = baseChars remote.data := by
      rw [hdata]
      exact baseChars_childChars _ _ hn
    refine ⟨hdata, ?_, ?_⟩
    · unfold pathBase
      rw [hbase]
    · unfold isFileUnder
      rw [hbase]
      simp only [Bool.and_eq_true, decide_eq_true_eq]
      exact ⟨hn, hdata⟩
  · intro env client files w e he j q ok hq
    have htrace : (downloadFiles env client files dir w).2.trace
        = w.trace ++ runEvents env dir 0 files := by
      unfold downloadFiles
      rw [downloadFilesFrom_trace]
    rw [newEvents_of_trace _ _ _ htrace] at he
    exact runEvents_create env dir files 0 e he j q ok hq

theorem localFilePath_under_localDir_witness :
    ordinaryName (pathBase "/data/a.txt").data = true ∧
    pathBase "/backup/a.txt" = pathBase "/data/a.txt" ∧
    localFilePath "./" "/backup/a.txt" = localFilePath "./" "/data/a.txt" ∧
    localFilePath "./" "/data/a.txt" = "a.txt" ∧
    isFileUnder "./" (localFilePath "./" "/data/a.txt") = true :=
  ⟨by decide, by decide,
   (localFilePath_under_localDir "./" "/data/a.txt").1 "/backup/a.txt" (by decide),
   by decide,
   ((localFilePath_under_localDir "./" "/data/a.txt").2.2.1 (by decide)).2.2⟩

theorem downloadRemote_never_releases_witness :
    Event.closeClient ∉ newEvents emptyWorld (downloadRemote envAllOk paramsTwo emptyWorld) ∧
    envNoSftp.newClient = some "subsystem request failed" ∧
    (connect envNoSftp paramsTwo emptyWorld).1 = .error "subsystem request failed" ∧
    newEvents emptyWorld (connect envNoSftp paramsTwo emptyWorld).2
      = [.dial (paramsTwo.Host ++ ":" ++ toString paramsTwo.Port) paramsTwo.User true,
         .newClient false] :=
  ⟨(downloadRemote_never_releases envAllOk paramsTwo emptyWorld).1, rfl,
   ((downloadRemote_never_releases envNoSftp paramsTwo emptyWorld).2.2
      "subsystem request failed" rfl rfl).1,
   ((downloadRemote_never_releases envNoSftp paramsTwo emptyWorld).2.2
      "subsystem request failed" rfl rfl).2⟩

theorem downloadAndShowTime_stdout_witness :
    ((connect envHostDown paramsTwo emptyWorld).1 = .error "connection refused" ∧
      stdout (downloadAndShowTime envHostDown paramsTwo emptyWorld)
        = stdout emptyWorld ++ [startLine envHostDown]) ∧
    ((connect envAllOk paramsTwo emptyWorld).1 = .ok ⟨"nas.example.org:22"⟩ ∧
      successCount envAllOk "./" 0 paramsTwo.RemoteFiles = 2 ∧
      stdout (downloadAndShowTime envAllOk paramsTwo emptyWorld)
        = stdout emptyWorld ++ startLine envAllOk ::
            (paramsTwo.RemoteFiles.take (successCount envAllOk "./" 0 paramsTwo.RemoteFiles)).map
              (fun f => downloadedLine f (localFilePath "./" f))) :=
  ⟨⟨rfl,
    (downloadAndShowTime_stdout envHostDown paramsTwo emptyWorld).1 "connection refused" rfl⟩,
   ⟨rfl, by decide,
    (downloadAndShowTime_stdout envAllOk paramsTwo emptyWorld).2 ⟨"nas.example.org:22"⟩ rfl⟩⟩

end Nas
